import Mathlib

/-!
Shallow embedding of the scoreboard statistics script
(src/attack_lab_stats.py): fetching, validation, table extraction,
normalization, the statistics aggregation and the two chart stages,
together with theorems settling the specification claims.

Strings are modelled as lists of characters so that every operation is
structurally recursive (or fuel-driven) and kernel-evaluable. Every
float the script handles is a short exact decimal, so floats are
modelled by canonical exact decimals on the data path, converted to
rationals inside the statistics stage; a pandas NaN is an absent
optional value.
-/

set_option maxRecDepth 100000

deriving instance DecidableEq for Except

namespace AttackLab

/-- Character strings of the scoreboard data, as lists of characters. -/
abbrev Str := List Char

/-- Tests whether the first list occurs at the head of the second. -/
def begMatch : Str → Str → Bool
  | [], _ => true
  | _ :: _, [] => false
  | a :: as, b :: bs => a == b && begMatch as bs

/-- Tests whether the first list occurs anywhere inside the second,
modelling the regex search for a fixed marker string. -/
def containsSeg (needle : Str) : Str → Bool
  | [] => begMatch needle []
  | c :: rest => begMatch needle (c :: rest) || containsSeg needle rest

/-- Tests whether the first list occurs at the tail end of the second. -/
def endsWithSeg (suf l : Str) : Bool :=
  begMatch suf (List.drop (l.length - suf.length) l)

/-- Fuel-driven splitting of a list at every occurrence of a separator,
modelling splitting an html document at a fixed tag. -/
def splitSegGo (sep : Str) : Nat → Str → Str → List Str
  | 0, acc, l => [acc.reverse ++ l]
  | _ + 1, acc, [] => [acc.reverse]
  | fuel + 1, acc, c :: rest =>
      if begMatch sep (c :: rest) then
        acc.reverse :: splitSegGo sep fuel [] (List.drop sep.length (c :: rest))
      else
        splitSegGo sep fuel (c :: acc) rest

/-- Splits a list at every occurrence of a separator. -/
def splitSeg (sep l : Str) : List Str := splitSegGo sep l.length [] l

/-- The portion of a list before the first occurrence of a separator
(the whole list when the separator does not occur). -/
def takeBefore (sep l : Str) : Str := (splitSeg sep l).headD []

/-- The segments of a list lying between an opening tag and the next
closing tag, modelling extraction of tag-delimited html content. -/
def segmentsBetween (opn cls l : Str) : List Str :=
  ((splitSeg opn l).drop 1).map (takeBefore cls)

/-- The portion of a list before the last occurrence of a separator, or
nothing when the separator does not occur; models a greedy capture. -/
def lastSplitBefore (sep l : Str) : Option Str :=
  match splitSeg sep l with
  | [] => none
  | [_] => none
  | parts => some (List.intercalate sep parts.dropLast)

/-- The portion of a list before the first newline, since a dot in the
searched regex does not match a newline. -/
def lineOf (l : Str) : Str := takeBefore ['\n'] l

/-- Numeric value of a decimal digit character. -/
def digitVal (c : Char) : Option Nat :=
  if '0' ≤ c ∧ c ≤ '9' then some (c.toNat - '0'.toNat) else none

/-- Accumulating read of a digit string. -/
def digitsToNatGo : Str → Nat → Option Nat
  | [], acc => some acc
  | c :: rest, acc =>
      match digitVal c with
      | some d => digitsToNatGo rest (10 * acc + d)
      | none => none

/-- Read of a nonempty digit string. -/
def digitsToNat (l : Str) : Option Nat :=
  if l = [] then none else digitsToNatGo l 0

/-- Fuel-driven decimal digits of a natural number, most significant
digit first. -/
def natToDigitsGo : Nat → Nat → Str → Str
  | 0, _, acc => acc
  | fuel + 1, n, acc =>
      if n < 10 then Char.ofNat (n + '0'.toNat) :: acc
      else natToDigitsGo fuel (n / 10) (Char.ofNat (n % 10 + '0'.toNat) :: acc)

/-- Decimal digits of a natural number. -/
def natToDigits (n : Nat) : Str := natToDigitsGo (n + 1) n []

/-- Left zero padding to a given width. -/
def padZeros (k : Nat) (l : Str) : Str := List.replicate (k - l.length) '0' ++ l

/-- Exact decimal number: sign, integer part, fraction digits read as a
natural number, and the number of fraction digits. All the floats the
script handles (scores and the configured penalized values) are short
exact decimals, so a Python float is modelled by its decimal value in a
canonical form with no trailing fraction zeros; float equality is then
structural equality of the canonical forms. -/
structure Dec where
  neg : Bool
  ip : Nat
  fp : Nat
  fplen : Nat
deriving DecidableEq

/-- Fuel-driven removal of trailing zeros from the fraction digits. -/
def canonDecGo : Nat → Nat → Nat → Nat × Nat
  | 0, fp, len => (fp, len)
  | fuel + 1, fp, len =>
      if len = 0 then (fp, 0)
      else if fp % 10 = 0 then canonDecGo fuel (fp / 10) (len - 1)
      else (fp, len)

/-- Canonical form of a decimal: trailing fraction zeros removed and a
zero is never negative. -/
def canonDec (neg : Bool) (ip fp len : Nat) : Dec :=
  match canonDecGo len fp len with
  | (f, k) => ⟨if ip = 0 ∧ f = 0 then false else neg, ip, f, k⟩

/-- Read of an unsigned decimal literal, modelling the float conversion
pandas applies to scoreboard cells. -/
def parseUDec (l : Str) : Option Dec :=
  match splitSeg ['.'] l with
  | [a] => (digitsToNat a).map (fun n => canonDec false n 0 0)
  | [a, b] =>
      match digitsToNat a, (if b = [] then some 0 else digitsToNat b) with
      | some n, some f => some (canonDec false n f b.length)
      | _, _ => none
  | _ => none

/-- Read of a signed decimal literal. -/
def parseDec (l : Str) : Option Dec :=
  match l with
  | '-' :: rest => (parseUDec rest).map (fun d => canonDec true d.ip d.fp d.fplen)
  | _ => parseUDec l

/-- Decimal rendering of a number as Python renders a float: a whole
number gains a trailing ".0", other values print their fraction digits
(which carry no trailing zeros in canonical form). -/
def floatStr (d : Dec) : Str :=
  (if d.neg then ['-'] else []) ++ natToDigits d.ip ++ '.' ::
    (if d.fplen = 0 then ['0'] else padZeros d.fplen (natToDigits d.fp))

/-- Rational value of a decimal, used by the statistics stage. -/
def decToQ (d : Dec) : ℚ :=
  (if d.neg then -1 else 1) * ((d.ip : ℚ) + (d.fp : ℚ) / (10 : ℚ) ^ d.fplen)

/-- A dataframe cell after table extraction: numeric (a pandas float)
when its whole column converted to numbers, textual otherwise. -/
inductive Cell where
  | num (d : Dec)
  | txt (s : Str)
deriving DecidableEq

/-- The five phase column names, from the phases list of the script. -/
def phasesNames : List Str :=
  ["Phase 1".data, "Phase 2".data, "Phase 3".data, "Phase 4".data, "Phase 5".data]

/-- Full-credit score text per phase, from points_per_phase. -/
def pointsPerPhase : List Str :=
  ["15".data, "25".data, "25".data, "35".data, "20".data]

/-- Penalized score per phase as floats, from
float_penalized_points_per_phase. -/
def floatPenalizedPoints : List Dec :=
  [⟨false, 12, 75, 2⟩, ⟨false, 21, 25, 2⟩, ⟨false, 21, 25, 2⟩, ⟨false, 29, 75, 2⟩, ⟨false, 17, 0, 0⟩]

/-- Penalized score per phase as strings, from
str_penalized_points_per_phase. -/
def strPenalizedPoints : List Str :=
  ["12.75".data, "21.25".data, "21.25".data, "29.75".data, "17".data]

/-- Python str.replace(".0", "") as pandas applies it to a phase column
cell with its regex-free default: every occurrence of the literal
two-character substring ".0" is removed, scanning left to right without
rescanning the produced text. -/
def stripDot0 : Str → Str
  | [] => []
  | [c] => [c]
  | c :: d :: rest =>
      if c = '.' ∧ d = '0' then stripDot0 rest
      else c :: stripDot0 (d :: rest)

/-- Cast of a cell to text, modelling astype(str) on the dataframe. -/
def astypeStr : Cell → Str
  | .num d => floatStr d
  | .txt s => s

/-- Normalization of the phase cell of column index i, following lines
71 to 75 of the script: replace the float penalized value of the phase
with "Penalized", then the string penalized value with "Penalized",
cast to text, and remove every ".0". -/
def normalizePhaseCell (i : Nat) (c : Cell) : Str :=
  let c1 : Cell :=
    match c with
    | .num d => if d = floatPenalizedPoints.getD i ⟨false, 0, 0, 0⟩ then .txt "Penalized".data else .num d
    | .txt s => .txt s
  let c2 : Cell :=
    match c1 with
    | .txt s => if s = strPenalizedPoints.getD i [] then .txt "Penalized".data else .txt s
    | .num d => .num d
  stripDot0 (astypeStr c2)

/-- Cast of the score cell to a float, modelling astype(str) on the
whole dataframe followed by astype(float) on the score column; an
unparseable score is the ValueError of the cast. -/
def normalizeScore (c : Cell) : Option Dec := parseDec (astypeStr c)

/-- One row of the extracted table before normalization: the score cell
and the five phase cells, identifying and date columns dropped. -/
structure RawRow where
  score : Cell
  phases : List Cell
deriving DecidableEq

/-- One row of the normalized table: a numeric total score and the five
phase cells as canonical text. -/
structure NRow where
  score : Dec
  phases : List Str
deriving DecidableEq

/-- Normalization of the extracted rows (lines 71 to 80 of the script);
nothing models the ValueError of the score cast. -/
def normalizeRows (rows : List RawRow) : Option (List NRow) :=
  rows.mapM fun r =>
    (normalizeScore r.score).map fun q =>
      { score := q
        phases := (List.range 5).map fun i => normalizePhaseCell i (r.phases.getD i (.txt [])) }

/-- A table as read out of the html markup: a header row of column
names and the data rows, each a list of cell texts. -/
structure RawTable where
  header : List Str
  rows : List (List Str)
deriving DecidableEq

/-- The cells of one table row, as the text between an opening and a
closing tag of the given name. -/
def cellsOf (tag : String) (row : Str) : List Str :=
  segmentsBetween ('<' :: tag.data ++ ['>']) ('<' :: '/' :: tag.data ++ ['>']) row

/-- All the tables of an html document: each table tag contributes its
first row as the header (th cells) and the rest as data rows (td
cells). Models the table lifting of pandas read_html, which takes the
header of the scoreboard page from its table header cells. -/
def tablesOf (h : Str) : List RawTable :=
  (segmentsBetween "<table>".data "</table>".data h).map fun t =>
    match segmentsBetween "<tr>".data "</tr>".data t with
    | [] => ⟨[], []⟩
    | hd :: tl => ⟨cellsOf "th" hd, tl.map (cellsOf "td")⟩

/-- Whether a table holds the matched text "#" anywhere, modelling the
match argument of read_html. -/
def tableMatches (t : RawTable) : Bool :=
  (t.header ++ t.rows.foldr (· ++ ·) []).any (containsSeg ['#'])

/-- The first table matching "#", as selected at line 68 of the script;
nothing models the ValueError read_html raises when no table matches. -/
def readHtmlTable (h : Str) : Option RawTable :=
  ((tablesOf h).filter tableMatches).head?

/-- Index of a named column in the table header. -/
def colIdx (t : RawTable) (name : String) : Option Nat :=
  t.header.findIdx? (fun c => c == name.data)

/-- The texts of one column of the table. -/
def colCells (t : RawTable) (i : Nat) : List Str :=
  t.rows.map fun r => r.getD i []

/-- Column-wise numeric conversion of read_html: a column whose cells
all read as decimal literals becomes a float column, any other column
keeps its texts. -/
def typeColumn (cells : List Str) : List Cell :=
  if cells.all (fun c => (parseDec c).isSome) then
    cells.map fun c =>
      match parseDec c with
      | some d => Cell.num d
      | none => Cell.txt c
  else cells.map Cell.txt

/-- Extraction of the scoreboard rows from the matched table: the "#"
and "Date" columns must exist to be dropped and the score and phase
columns must exist to be read (their absence is the KeyError of the
dataframe operations); each kept column converts column-wise. -/
def extractRows (t : RawTable) : Option (List RawRow) := do
  let _ ← colIdx t "#"
  let _ ← colIdx t "Date"
  let si ← colIdx t "Score"
  let p1 ← colIdx t "Phase 1"
  let p2 ← colIdx t "Phase 2"
  let p3 ← colIdx t "Phase 3"
  let p4 ← colIdx t "Phase 4"
  let p5 ← colIdx t "Phase 5"
  let scoreCol := typeColumn (colCells t si)
  let phaseCols := [p1, p2, p3, p4, p5].map fun i => typeColumn (colCells t i)
  some ((List.range t.rows.length).map fun r =>
    { score := scoreCol.getD r (.txt [])
      phases := phaseCols.map fun col => col.getD r (.txt []) })

/-- The title marker the validation step searches for at line 44. -/
def titleMarker : Str := "<title>Attack Lab Scoreboard</title>".data

/-- Extraction of the last-updated text, modelling the regex search at
line 87: the match starts at the first position where "updated: " reads
and a closing " (updated" follows on the same line, and the greedy
capture runs to the last such closing of that line. Nothing models the
AttributeError the script raises on a missing match. -/
def extractUpdated : Str → Option Str
  | [] => none
  | c :: rest =>
      if begMatch "updated: ".data (c :: rest) then
        match lastSplitBefore " (updated".data (lineOf (List.drop 9 (c :: rest))) with
        | some cap => some cap
        | none => extractUpdated rest
      else extractUpdated rest

/-- The error outcomes of a run, one per terminal exception path of the
script: the uncaught read failure of urlopen, the wrong-page exit at
line 45, the ValueError of read_html when no table matches, the
KeyError of a missing dataframe column, the ValueError of the score
cast, the AttributeError of the failed date regex at line 87, and the
KeyError of a category label absent from the joint counts index. -/
inductive Err where
  | fetchError
  | validationError
  | parseError
  | colKeyError
  | castError
  | dateError
  | keyError (label : String)
deriving DecidableEq

/-- Table extraction and normalization, lines 68 to 80 of the script. -/
def parseNormalize (h : Str) : Except Err (List NRow) :=
  match readHtmlTable h with
  | none => .error .parseError
  | some t =>
      match extractRows t with
      | none => .error .colKeyError
      | some raw =>
          match normalizeRows raw with
          | none => .error .castError
          | some rows => .ok rows

/-- Count of the rows whose phase cell of column index i holds exactly
the given text, as value_counts reindexed with fill value zero reads
it. -/
def countPhaseEq (rows : List NRow) (i : Nat) (label : Str) : Nat :=
  (rows.filter fun r => r.phases.getD i [] == label).length

/-- Targets that passed a phase in the per-phase report lines: full
credit plus "Penalized" occurrences, line 106 of the script. -/
def passedCount (rows : List NRow) (i : Nat) : Nat :=
  countPhaseEq rows i (pointsPerPhase.getD i []) + countPhaseEq rows i "Penalized".data

/-- Targets whose score equals 0.0, line 113 of the script. -/
def noPhasesCount (rows : List NRow) : Nat :=
  (rows.filter fun r => r.score == (⟨false, 0, 0, 0⟩ : Dec)).length

/-- Joint count of a category label over the five phase columns, as
count_df.loc reads it at lines 116 to 121: the label is a row of the
joint value_counts index only when it occurs in some cell, so a label
occurring nowhere is a KeyError, modelled by an absent value. -/
def jointTotal (rows : List NRow) (label : Str) : Option Nat :=
  match (List.range 5).foldr (fun i acc => countPhaseEq rows i label + acc) 0 with
  | 0 => none
  | n + 1 => some (n + 1)

/-- The scores of the normalized rows as rationals. -/
def scoresOf (rows : List NRow) : List ℚ := rows.map fun r => decToQ r.score

/-- Mean of the score column; the pandas mean of an empty series is
NaN, modelled by an absent value. -/
def scoreMean (l : List ℚ) : Option ℚ :=
  if l = [] then none else some (l.sum / l.length)

/-- Sample variance of the score column with divisor n minus one; the
pandas var of fewer than two values is NaN. -/
def scoreVar (l : List ℚ) : Option ℚ :=
  if l.length < 2 then none
  else
    let m := l.sum / l.length
    some ((l.map fun x => (x - m) ^ 2).sum / ((l.length : ℚ) - 1))

/-- Whether the standard deviation of the score column is NaN: the
pandas std is the square root of the sample variance, an irrational
value in general, so the report models exactly its NaN-ness, which
coincides with that of the variance. -/
def scoreStdIsNaN (l : List ℚ) : Bool := (scoreVar l).isNone

/-- Maximum of the score column, NaN when empty. -/
def scoreMaxOf (l : List ℚ) : Option ℚ := l.max?

/-- Minimum of the score column, NaN when empty. -/
def scoreMinOf (l : List ℚ) : Option ℚ := l.min?

/-- Range of the score column, max minus min, NaN when empty. -/
def scoreRangeOf (l : List ℚ) : Option ℚ :=
  (scoreMaxOf l).bind fun a => (scoreMinOf l).map fun b => a - b

/-- One per-phase breakdown of the report text, lines 106 to 110. -/
structure PhaseLine where
  passed : Nat
  penalized : Nat
  tooLate : Nat
  invalid : Nat
deriving DecidableEq

/-- The values serialized into the text report, lines 98 to 129, in
their structure rather than their printed form. -/
structure Report where
  date : Str
  total : Nat
  phaseLines : List PhaseLine
  noPhases : Nat
  totalPenalized : Nat
  totalLate : Nat
  totalInvalid : Nat
  hi : Option ℚ
  lo : Option ℚ
  range : Option ℚ
  mean : Option ℚ
  variance : Option ℚ
  stdIsNaN : Bool
deriving DecidableEq

/-- The report contents computed from the normalized rows. -/
def mkReport (date : Str) (rows : List NRow) : Report :=
  let l := scoresOf rows
  { date := date
    total := rows.length
    phaseLines := [4, 3, 2, 1, 0].map fun i =>
      { passed := passedCount rows i
        penalized := countPhaseEq rows i "Penalized".data
        tooLate := countPhaseEq rows i "Too Late".data
        invalid := countPhaseEq rows i "Invalid".data }
    noPhases := noPhasesCount rows
    totalPenalized := (jointTotal rows "Penalized".data).getD 0
    totalLate := (jointTotal rows "Too Late".data).getD 0
    totalInvalid := (jointTotal rows "Invalid".data).getD 0
    hi := scoreMaxOf l
    lo := scoreMinOf l
    range := scoreRangeOf l
    mean := scoreMean l
    variance := scoreVar l
    stdIsNaN := scoreStdIsNaN l }

/-- The statistics stage: it fails with the KeyError of the first
category label absent from the joint counts index, in the order the
script reads them at lines 119 to 121, and otherwise yields the report
contents. -/
def statsReport (date : Str) (rows : List NRow) : Except Err Report :=
  match jointTotal rows "Penalized".data with
  | none => .error (.keyError "Penalized")
  | some _ =>
      match jointTotal rows "Too Late".data with
      | none => .error (.keyError "Too Late")
      | some _ =>
          match jointTotal rows "Invalid".data with
          | none => .error (.keyError "Invalid")
          | some _ => .ok (mkReport date rows)

/-- The passed test of the furthest-phase loop as the code writes it at
line 176: the normalized cell is compared against the full-credit text
and against the raw penalized text of the phase. -/
def passedAtCode (i : Nat) (r : NRow) : Bool :=
  r.phases.getD i [] == pointsPerPhase.getD i [] ||
    r.phases.getD i [] == strPenalizedPoints.getD i []

/-- The furthest-phase loop of lines 174 to 180: for each listed phase
index, count the currently remaining rows passing the coded test and
drop them from the pool. -/
def phasesLoopGo : List Nat → List NRow → List Nat × List NRow
  | [], df => ([], df)
  | i :: is, df =>
      match phasesLoopGo is (df.filter fun r => ! passedAtCode i r) with
      | (ns, fin) => ((df.filter (passedAtCode i)).length :: ns, fin)

/-- The phases_count list of the script, built over phases in reverse
order, so from phase index 4 down to 0. -/
def phasesCount (rows : List NRow) : List Nat :=
  (phasesLoopGo [4, 3, 2, 1, 0] rows).1

/-- The count column of phases_df, line 183: phases_count reversed back
into declaration order. -/
def barCounts (rows : List NRow) : List Nat := (phasesCount rows).reverse

/-- The denominator of the proportion column, line 184. -/
def barSum (rows : List NRow) : Nat := (barCounts rows).sum

/-- The proportion column of phases_df: each count divided by the sum
of the counts; a zero sum makes every entry the NaN of a zero over zero
pandas division, modelled by an absent value. -/
def barProportions (rows : List NRow) : List (Option ℚ) :=
  (barCounts rows).map fun c : Nat =>
    if barSum rows = 0 then none else some ((c : ℚ) / (barSum rows : ℚ))

/-- The percent column of phases_df, line 185. -/
def barPercents (rows : List NRow) : List (Option ℚ) :=
  (barProportions rows).map (Option.map (· * 100))

/-- Everything the run computes for its three output files: the report
contents, the scores the histogram draws, and the counts and percent
labels of the furthest-phase bar chart. -/
structure Outputs where
  report : Report
  histScores : List Dec
  counts : List Nat
  percents : List (Option ℚ)
deriving DecidableEq

/-- Outcome of a run: the output files written in order, the computed
outputs when the run finished, and the error that ended it early. -/
structure RunResult where
  written : List String
  out : Option Outputs
  err : Option Err
deriving DecidableEq

/-- The full script on a fetched document, in the order of the source:
validate the title (line 44), read and normalize the table (lines 68 to
80), extract the date (line 87), build the statistics (lines 98 to
129), write the text report, draw and write the histogram from the
still unmutated rows (line 141), then run the furthest-phase loop that
consumes the row pool and write the bar chart (lines 174 to 211). Every
error path precedes the first file write. -/
def runScript (html : Str) : RunResult :=
  if containsSeg titleMarker html then
    match parseNormalize html with
    | .error e => ⟨[], none, some e⟩
    | .ok rows =>
        match extractUpdated html with
        | none => ⟨[], none, some .dateError⟩
        | some d =>
            match statsReport d rows with
            | .error e => ⟨[], none, some e⟩
            | .ok rep =>
                ⟨["project_stats.txt", "scores_histogram.png", "phases_barplot.png"],
                  some { report := rep
                         histScores := rows.map NRow.score
                         counts := barCounts rows
                         percents := barPercents rows },
                  none⟩
  else ⟨[], none, some .validationError⟩

/-- The fetch step and the run after it: an erroring read is the
uncaught transport exception; a body that did arrive, empty or not, is
handed to the script unchecked. -/
def runFromFetch : Option Str → RunResult
  | none => ⟨[], none, some .fetchError⟩
  | some h => runScript h

/-- The notion of passing a phase stated by the spec, full credit or
penalized, written from the words of the spec to compare the coded
furthest-phase loop against the claimed behavior. -/
def specPassedPhase (i : Nat) (r : NRow) : Bool :=
  r.phases.getD i [] == pointsPerPhase.getD i [] ||
    r.phases.getD i [] == "Penalized".data

/-- An entrant passing no phase at all, in the sense of the spec. -/
def specPassedNone (r : NRow) : Bool :=
  [0, 1, 2, 3, 4].all fun i => ! specPassedPhase i r

/-- The scoreboard table of the concrete sample documents: one entrant
with a penalized phase 1, a late phase 2, an invalid phase 3 and full
credit on phases 4 and 5. -/
def sampleTableHtml : String :=
  "<table><tr><th>#</th><th>Date</th><th>Score</th><th>Phase 1</th><th>Phase 2</th>" ++
  "<th>Phase 3</th><th>Phase 4</th><th>Phase 5</th></tr>" ++
  "<tr><td>1</td><td>Sep 01</td><td>100</td><td>12.75</td><td>Too Late</td>" ++
  "<td>Invalid</td><td>35</td><td>20</td></tr></table>"

/-- A well-formed sample document: title marker, last-updated text and
the sample table. -/
def sampleHtml : Str :=
  ("<title>Attack Lab Scoreboard</title> updated: Mon Sep 01 10:00:00 2025 (updated every min)" ++
    sampleTableHtml).data

/-- The date text the sample document carries. -/
def sampleDate : Str := "Mon Sep 01 10:00:00 2025".data

/-- The normalized row the sample table extracts to. -/
def sampleRows : List NRow :=
  [⟨⟨false, 100, 0, 0⟩,
    ["Penalized".data, "Too Late".data, "Invalid".data, "35".data, "20".data]⟩]

/-- The outputs of a run over the sample document. -/
def sampleOut : Outputs :=
  { report := mkReport sampleDate sampleRows
    histScores := [⟨false, 100, 0, 0⟩]
    counts := [0, 0, 0, 0, 1]
    percents := barPercents sampleRows }

/-- A document carrying the title marker and the sample table but no
last-updated text. -/
def noDateHtml : Str :=
  ("<title>Attack Lab Scoreboard</title>" ++ sampleTableHtml).data

/-- An extracted row whose only credited phase is a penalized phase 5,
carried by the float penalized value 17.0 of that phase. -/
def penalizedOnlyRaw : RawRow :=
  { score := .num ⟨false, 17, 0, 0⟩
    phases := [.txt "Too Late".data, .txt "Too Late".data, .txt "Too Late".data,
      .txt "Too Late".data, .num ⟨false, 17, 0, 0⟩] }

/-- The normalization of penalizedOnlyRaw. -/
def penalizedOnlyRow : NRow :=
  ⟨⟨false, 17, 0, 0⟩,
    ["Too Late".data, "Too Late".data, "Too Late".data, "Too Late".data, "Penalized".data]⟩

/-- An extracted row whose phase 5 cell is the text "17.0", a textual
form of the penalized value that matches neither configured penalized
representation exactly. -/
def rawPenalizedTextRow : RawRow :=
  { score := .num ⟨false, 17, 0, 0⟩
    phases := [.txt "15".data, .txt "0".data, .txt "0".data, .txt "0".data, .txt "17.0".data] }

/-- A normalized row with a penalized phase 1, a late phase 2, an
invalid phase 3 and full credit on phases 4 and 5, but no cell of the
"Invalid" category anywhere. -/
def noInvalidRow : NRow :=
  ⟨⟨false, 120, 0, 0⟩, ["Penalized".data, "Too Late".data, "25".data, "35".data, "20".data]⟩

/-- A normalized row whose only credited phase is a penalized phase 1. -/
def penalizedFirstRow : NRow :=
  ⟨⟨false, 12, 75, 2⟩, ["Penalized".data, "0".data, "0".data, "0".data, "0".data]⟩

/-- A normalized row with full credit on every phase. -/
def fullCreditRow : NRow :=
  ⟨⟨false, 120, 0, 0⟩, ["15".data, "25".data, "25".data, "35".data, "20".data]⟩

/-- A text with no occurrence of ".0" passes stripDot0 unchanged. -/
lemma stripDot0_eq_self_aux :
    ∀ (n : Nat) (s : Str), s.length ≤ n → containsSeg ['.', '0'] s = false → stripDot0 s = s := by
  intro n
  induction n with
  | zero =>
      intro s hs _
      have hnil : s = [] := List.eq_nil_of_length_eq_zero (Nat.le_zero.mp hs)
      subst hnil
      rfl
  | succ n ih =>
      intro s hs h
      rcases s with _ | ⟨c, _ | ⟨d, rest⟩⟩
      · rfl
      · rfl
      · rw [containsSeg, Bool.or_eq_false_iff] at h
        have hcd : ¬(c = '.' ∧ d = '0') := by
          rintro ⟨rfl, rfl⟩
          simp [begMatch] at h
        rw [stripDot0, if_neg hcd]
        have hlen : (d :: rest).length ≤ n := by
          simp only [List.length_cons] at hs ⊢
          omega
        rw [ih (d :: rest) hlen h.2]

/-- A text with no occurrence of ".0" passes stripDot0 unchanged. -/
lemma stripDot0_eq_self (s : Str) (h : containsSeg ['.', '0'] s = false) : stripDot0 s = s :=
  stripDot0_eq_self_aux s.length s (Nat.le_refl _) h

/-- Claim C1: the furthest-phase loop is claimed to count, at each
phase from last to first, the remaining rows that passed that phase
with full or penalized credit, and to make the counts sum to the
entrant count minus the entrants who passed no phase. The code belies
this: at line 176 it compares the normalized cells against the raw
penalized text, which normalization replaced with "Penalized" at line
71, so a penalized-only entrant is counted nowhere. Evaluated at a
single entrant whose phase 5 holds the penalized value 17.0: the phase
counts are all zero though the claim demands they sum to one. -/
theorem c1_penalized_entrant_not_counted :
    normalizeRows [penalizedOnlyRaw] = some [penalizedOnlyRow] ∧
    specPassedPhase 4 penalizedOnlyRow = true ∧
    specPassedNone penalizedOnlyRow = false ∧
    phasesCount [penalizedOnlyRow] = [0, 0, 0, 0, 0] ∧
    (phasesCount [penalizedOnlyRow]).sum = 0 ∧
    [penalizedOnlyRow].length - ([penalizedOnlyRow].filter specPassedNone).length = 1 := by
  decide

/-- Claim C2, counterexample: the raw penalized numeric text can
reappear in a normalized row: a phase 5 text cell "17.0" equals neither
configured penalized representation, so it dodges the "Penalized"
relabeling, and the ".0" removal then turns it into "17", the raw
penalized text of phase 5. -/
theorem c2_raw_penalized_text_reappears :
    normalizePhaseCell 4 (.txt "17.0".data) = strPenalizedPoints.getD 4 [] ∧
    Cell.txt "17.0".data ≠ .num (floatPenalizedPoints.getD 4 ⟨false, 0, 0, 0⟩) ∧
    Cell.txt "17.0".data ≠ .txt (strPenalizedPoints.getD 4 []) ∧
    (normalizeRows [rawPenalizedTextRow]).map (List.map fun r => r.phases.getD 4 []) =
      some ["17".data] := by
  decide

/-- Claim C2 (amended): a phase cell that equals the configured
penalized value of its phase, as the float or as the exact text,
normalizes to exactly "Penalized"; but the raw penalized numeric text
can still appear in a normalized row, produced out of a textual cell
such as "17.0" by the ".0" removal. This theorem is the first half. -/
theorem c2_penalized_value_relabeled (i : Nat) (c : Cell) (hi : i < 5)
    (hc : c = .num (floatPenalizedPoints.getD i ⟨false, 0, 0, 0⟩) ∨
      c = .txt (strPenalizedPoints.getD i [])) :
    normalizePhaseCell i c = "Penalized".data := by
  rcases hc with rfl | rfl <;> interval_cases i <;> decide

/-- Witness for c2_penalized_value_relabeled at phase 1 and its float
penalized value 12.75. -/
theorem c2_penalized_value_relabeled_witness :
    (0 : Nat) < 5 ∧ normalizePhaseCell 0 (.num ⟨false, 12, 75, 2⟩) = "Penalized".data :=
  ⟨by decide,
    c2_penalized_value_relabeled 0 (.num ⟨false, 12, 75, 2⟩) (by decide) (Or.inl (by decide))⟩

/-- Claim C4, counterexample: the ".0" coercion does not only drop a
trailing ".0": the phase 1 cell "0.01", which is not the penalized text
of its phase and does not end in ".0", is changed to "01". -/
theorem c4_inner_dot0_removed :
    normalizePhaseCell 0 (.txt "0.01".data) = "01".data ∧
    endsWithSeg ['.', '0'] "0.01".data = false ∧
    "0.01".data ≠ strPenalizedPoints.getD 0 [] := by
  decide

/-- Claim C4 (amended): the coercion removes every occurrence of the
literal substring ".0", not only a trailing one; a phase cell that is
not the penalized text of its phase and holds no occurrence of ".0" at
all is left unchanged. This theorem is the unchanged half. -/
theorem c4_no_dot0_unchanged (i : Nat) (s : Str)
    (hno : containsSeg ['.', '0'] s = false)
    (hpen : s ≠ strPenalizedPoints.getD i []) :
    normalizePhaseCell i (.txt s) = s := by
  have h1 : normalizePhaseCell i (.txt s) =
      stripDot0 (astypeStr (if s = strPenalizedPoints.getD i [] then Cell.txt "Penalized".data
        else Cell.txt s)) := rfl
  rw [h1, if_neg hpen]
  exact stripDot0_eq_self s hno

/-- Witness for c4_no_dot0_unchanged on the phase 2 cell "Too Late". -/
theorem c4_no_dot0_unchanged_witness :
    containsSeg ['.', '0'] "Too Late".data = false ∧
    "Too Late".data ≠ strPenalizedPoints.getD 1 [] ∧
    normalizePhaseCell 1 (.txt "Too Late".data) = "Too Late".data :=
  ⟨by decide, by decide, c4_no_dot0_unchanged 1 "Too Late".data (by decide) (by decide)⟩

/-- Claim C3, counterexample: the statistics stage never raises a
statistics error. Over the single-entrant sample row it succeeds and
the report carries a NaN variance and a NaN standard deviation with a
well-defined mean; over the empty entrant set it does fail, but with
the KeyError of the "Penalized" label missing from the joint counts,
raised at line 119 before any mean or variance is computed. -/
theorem c3_no_statistics_error :
    statsReport [] sampleRows = .ok (mkReport [] sampleRows) ∧
    (mkReport [] sampleRows).variance = none ∧
    (mkReport [] sampleRows).stdIsNaN = true ∧
    (mkReport [] sampleRows).mean.isSome = true ∧
    statsReport [] ([] : List NRow) = .error (.keyError "Penalized") :=
  ⟨rfl, rfl, rfl, rfl, rfl⟩

/-- Claim C3 (amended): over a single entrant the run does not fail:
the mean is the entrant score while the sample variance and the
standard deviation are NaN, and they are serialized so; over the empty
entrant set the statistics stage fails before the mean or variance is
reached, but with the KeyError of the missing "Penalized" category, not
a statistics error. -/
theorem c3_single_and_empty_give_nan_not_error (x : ℚ) :
    scoreVar [x] = none ∧
    scoreStdIsNaN [x] = true ∧
    scoreMean [x] = some x ∧
    scoreMean ([] : List ℚ) = none ∧
    scoreVar ([] : List ℚ) = none ∧
    statsReport [] ([] : List NRow) = .error (.keyError "Penalized") := by
  refine ⟨by simp [scoreVar], by simp [scoreStdIsNaN, scoreVar], ?_, rfl, rfl, rfl⟩
  simp [scoreMean]

/-- Claim C5: a fetched document lacking the exact title marker aborts
the run with the wrong-page error of line 45 before any of the three
output files is written. -/
theorem c5_missing_title_aborts_before_writes (html : Str)
    (h : containsSeg titleMarker html = false) :
    runScript html = ⟨[], none, some .validationError⟩ := by
  simp [runScript, h]

/-- Witness for c5_missing_title_aborts_before_writes on a page without
the marker. -/
theorem c5_missing_title_aborts_before_writes_witness :
    containsSeg titleMarker "<html>wrong page</html>".data = false ∧
    runScript "<html>wrong page</html>".data = ⟨[], none, some .validationError⟩ :=
  ⟨by decide, c5_missing_title_aborts_before_writes _ (by decide)⟩

/-- Claim C6, counterexample: on a document that carries the title
marker and a well-formed table but no last-updated text, the run does
abort, with the error of the failed date regex at line 87, and none of
the three output files is written; no placeholder timestamp exists. -/
theorem c6_missing_date_aborts :
    containsSeg titleMarker noDateHtml = true ∧
    extractUpdated noDateHtml = none ∧
    runScript noDateHtml = ⟨[], none, some .dateError⟩ := by
  decide

/-- Claim C6 (amended): absence of the last-updated marker is fatal:
whenever the title marker is present, the table parses and the date
pattern is absent, the run aborts with the date error and writes no
output file. -/
theorem c6_missing_date_is_fatal (html : Str) (rows : List NRow)
    (ht : containsSeg titleMarker html = true)
    (hp : parseNormalize html = .ok rows)
    (hd : extractUpdated html = none) :
    runScript html = ⟨[], none, some .dateError⟩ := by
  simp [runScript, ht, hp, hd]

/-- Witness for c6_missing_date_is_fatal on the dateless sample
document. -/
theorem c6_missing_date_is_fatal_witness :
    containsSeg titleMarker noDateHtml = true ∧
    parseNormalize noDateHtml = .ok sampleRows ∧
    extractUpdated noDateHtml = none ∧
    runScript noDateHtml = ⟨[], none, some .dateError⟩ :=
  ⟨by decide, by decide, by decide,
    c6_missing_date_is_fatal noDateHtml sampleRows (by decide) (by decide) (by decide)⟩

/-- Claim C7: the joint category totals are claimed to yield zero for a
category occurring in no phase cell. The code belies this: count_df.loc
raises a KeyError for a label absent from the joint value_counts index.
Evaluated at a single row with a penalized, a late and two full-credit
phases but no invalid cell: the "Invalid" occurrences number zero, yet
the lookup is the KeyError rather than a zero total, and the statistics
stage fails with it. -/
theorem c7_absent_category_keyerror :
    jointTotal [noInvalidRow] "Invalid".data = none ∧
    countPhaseEq [noInvalidRow] 0 "Invalid".data + countPhaseEq [noInvalidRow] 1 "Invalid".data +
      countPhaseEq [noInvalidRow] 2 "Invalid".data + countPhaseEq [noInvalidRow] 3 "Invalid".data +
      countPhaseEq [noInvalidRow] 4 "Invalid".data = 0 ∧
    statsReport [] [noInvalidRow] = .error (.keyError "Invalid") := by
  decide

/-- Claim C8, counterexample: an empty fetched body does not produce
the fetch error: it is handed to validation, which fails with the
wrong-page error instead. -/
theorem c8_empty_body_not_fetch_error :
    runFromFetch (some []) ≠ ⟨[], none, some .fetchError⟩ ∧
    (runFromFetch (some [])).err = some .validationError := by
  decide

/-- Claim C8 (amended): the fetch step fails with the fetch error, an
error distinct from the validation error, exactly when the read errors;
an empty body is not detected at fetch and instead fails the title
validation. -/
theorem c8_fetch_error_only_on_read_error :
    runFromFetch none = ⟨[], none, some .fetchError⟩ ∧
    runFromFetch (some []) = ⟨[], none, some .validationError⟩ ∧
    Err.validationError ≠ Err.fetchError := by
  decide

/-- A successful statistics stage yields exactly the report contents of
the rows. -/
lemma statsReport_ok (d : Str) (rows : List NRow) (rep : Report)
    (h : statsReport d rows = .ok rep) : rep = mkReport d rows := by
  unfold statsReport at h
  cases h1 : jointTotal rows "Penalized".data <;> rw [h1] at h
  · exact absurd h (by simp)
  · cases h2 : jointTotal rows "Too Late".data <;> rw [h2] at h
    · exact absurd h (by simp)
    · cases h3 : jointTotal rows "Invalid".data <;> rw [h3] at h
      · exact absurd h (by simp)
      · exact (Except.ok.inj h).symm

/-- Claim C9: the text report and the histogram are computed from the
full normalized row collection: whichever outputs a finished run
yields, its histogram scores and its report statistics are those of the
table normalization produced, untouched by the row removal the
furthest-phase loop performs afterwards. -/
theorem c9_charts_read_unmutated_rows (html : Str) (rows : List NRow) (out : Outputs)
    (hp : parseNormalize html = .ok rows)
    (ho : (runScript html).out = some out) :
    out.histScores = rows.map NRow.score ∧
    out.report.total = rows.length ∧
    out.report.mean = scoreMean (scoresOf rows) ∧
    out.report.variance = scoreVar (scoresOf rows) ∧
    out.report.hi = scoreMaxOf (scoresOf rows) ∧
    out.report.lo = scoreMinOf (scoresOf rows) ∧
    out.counts = barCounts rows ∧
    out.percents = barPercents rows := by
  unfold runScript at ho
  cases ht : containsSeg titleMarker html <;> rw [ht] at ho
  · simp at ho
  · rw [hp] at ho
    dsimp only at ho
    cases hd : extractUpdated html <;> rw [hd] at ho
    · simp at ho
    · rename_i d
      dsimp only at ho
      cases hrep : statsReport d rows with
      | error e => rw [hrep] at ho; simp at ho
      | ok rep =>
          rw [hrep] at ho
          dsimp only at ho
          simp only [if_true, Option.some.injEq] at ho
          subst ho
          have hr : rep = mkReport d rows := statsReport_ok d rows rep hrep
          subst hr
          exact ⟨rfl, rfl, rfl, rfl, rfl, rfl, rfl, rfl⟩

/-- Witness for c9_charts_read_unmutated_rows on the sample document. -/
theorem c9_charts_read_unmutated_rows_witness :
    parseNormalize sampleHtml = .ok sampleRows ∧
    (runScript sampleHtml).out = some sampleOut ∧
    (sampleOut.histScores = sampleRows.map NRow.score ∧
      sampleOut.report.total = sampleRows.length ∧
      sampleOut.report.mean = scoreMean (scoresOf sampleRows) ∧
      sampleOut.report.variance = scoreVar (scoresOf sampleRows) ∧
      sampleOut.report.hi = scoreMaxOf (scoresOf sampleRows) ∧
      sampleOut.report.lo = scoreMinOf (scoresOf sampleRows) ∧
      sampleOut.counts = barCounts sampleRows ∧
      sampleOut.percents = barPercents sampleRows) :=
  ⟨by decide, rfl, c9_charts_read_unmutated_rows sampleHtml sampleRows sampleOut (by decide) rfl⟩

/-- Claim C10, counterexample: the percent labels are claimed to divide
by the number of entrants who passed at least one phase and to sum to
one hundred whenever some entrant passed a phase. Over a single entrant
whose only credited phase is a penalized phase 1, the entrant passed a
phase, yet every bar count is zero, the denominator is zero and every
percent label is the NaN of a zero over zero division. -/
theorem c10_penalized_only_entrant_has_nan_percents :
    specPassedPhase 0 penalizedFirstRow = true ∧
    barCounts [penalizedFirstRow] = [0, 0, 0, 0, 0] ∧
    barSum [penalizedFirstRow] = 0 ∧
    barPercents [penalizedFirstRow] = [none, none, none, none, none] := by
  decide

/-- Sum of a list of counts each divided by a common denominator and
scaled. -/
lemma sum_map_div_mul (s : ℚ) (l : List Nat) :
    (l.map fun c : Nat => ((c : ℚ) / s) * 100).sum = ((l.sum : ℚ) / s) * 100 := by
  induction l with
  | nil => simp
  | cons a t ih =>
      simp only [List.map_cons, List.sum_cons, ih]
      push_cast
      ring

/-- Claim C10 (amended): each percent label is that phase count divided
by the sum of the five phase counts, scaled to a percentage, and those
values sum to one hundred whenever the sum of the counts is positive;
the denominator is the number of entrants the loop attributed to some
phase, which excludes penalized-only entrants along with entrants who
passed nothing. -/
theorem c10_percent_labels (rows : List NRow) (h : 0 < barSum rows) :
    barPercents rows = (barCounts rows).map
      (fun c : Nat => some (((c : ℚ) / (barSum rows : ℚ)) * 100)) ∧
    ((barCounts rows).map fun c : Nat => ((c : ℚ) / (barSum rows : ℚ)) * 100).sum = 100 := by
  have hz : barSum rows ≠ 0 := Nat.pos_iff_ne_zero.mp h
  have hq : ((barSum rows : ℕ) : ℚ) ≠ 0 := Nat.cast_ne_zero.mpr hz
  constructor
  · simp [barPercents, barProportions, hz, Function.comp]
  · rw [sum_map_div_mul]
    have hsum : ((barCounts rows).sum : ℚ) = ((barSum rows : ℕ) : ℚ) := rfl
    rw [hsum, div_self hq]
    norm_num

/-- Witness for c10_percent_labels on a single full-credit entrant. -/
theorem c10_percent_labels_witness :
    0 < barSum [fullCreditRow] ∧
    (barPercents [fullCreditRow] = (barCounts [fullCreditRow]).map
        (fun c : Nat => some (((c : ℚ) / (barSum [fullCreditRow] : ℚ)) * 100)) ∧
      ((barCounts [fullCreditRow]).map
        fun c : Nat => ((c : ℚ) / (barSum [fullCreditRow] : ℚ)) * 100).sum = 100) :=
  ⟨by decide, c10_percent_labels [fullCreditRow] (by decide)⟩

end AttackLab

